import Mathlib

/-!
# confgen: definition parsing and the generation run

A shallow embedding of `pkg/confgen/confgen.go`: the header check, `ParseDefinition`,
`getDefinitionFiles` and `Run`, followed by the properties proved about them.

Go values are modelled as follows.

* `[]byte` is `List UInt8`; a Go `string` is a Lean `String` (compared by content).
* A Go `error` is `Option Error`, `none` being `nil`.
* A pointer `*T` is `Option T`, `none` being `nil`; reading a field through `nil`
  is the run-time fault `Fault.nilDereference`.
* The methods of `*ConfGen` defined in other files of the package, the library
  functions and the types they exchange are parameters (`Foreign`, `Env`).  A method
  receives the whole program state and returns the state it leaves behind.
-/

namespace Confgen

/-! ## Constants -/

def definitionExt : String := ".yaml"

def definitionHeader : String := "#flp_confgen"

def configFileName : String := "config.yaml"

/-! ## Bytes and errors -/

abbrev Bytes := List UInt8

/-- The bytes of a Go string: its UTF-8 encoding. -/
def stringBytes (s : String) : Bytes := s.toUTF8.data.toList

/-- A non-nil Go `error`, identified by its message. -/
structure Error where
  msg : String
deriving DecidableEq, Repr

/-- A run-time panic. -/
inductive Fault where
  | nilDereference
deriving DecidableEq, Repr

/-- Go's builtin `copy(dst, src)`: the first `min (len dst) (len src)` elements of `dst`
are overwritten by those of `src`; the value is `dst` afterwards. -/
def copy (dst src : Bytes) : Bytes :=
  src.take (min dst.length src.length) ++ dst.drop (min dst.length src.length)

/-- Go's `make([]byte, n)`: `n` zero bytes. -/
def make (n : Nat) : Bytes := List.replicate n 0

/-- Source `checkHeader`. -/
def checkHeader (bytes : Bytes) : Option Error :=
  let header := copy (make (stringBytes definitionHeader).length) bytes
  if header ≠ stringBytes definitionHeader then
    some ⟨"wrong header"⟩
  else
    none

/-! ## Data model -/

/-- Modelled from the spec: `Options`, declared in another file of the package (§3, §6:
source directory, destination paths for config, documentation and the two dashboard
folders, skip-tag list, truncated stage list).  The fields are those this file reads.
`ConfGen.opts` is a pointer in the source; it is taken to be non-nil. -/
structure Options where
  SrcFolder : String
  DestConfFile : String
  DestDocFile : String
  DestGrafanaJsonnetFolder : String
  DestDashboardFolder : String
  SkipWithTags : List String
  GenerateStages : List String

/-- The types this file uses and does not declare: those of package `api`, those declared
in other files of package `confgen`, and the outside world the collaborators act on. -/
structure Foreign where
  /-- Type `Config` -/
  Config : Type
  /-- Type `api.TransformNetwork` -/
  TransformNetwork : Type
  /-- Type `api.NetworkTransformRules` -/
  NetworkTransformRules : Type
  /-- Type `api.Aggregates` -/
  Aggregates : Type
  /-- The element type of the slice `api.Aggregates.Rules` -/
  AggregateRule : Type
  /-- The field `Rules` of `api.Aggregates` -/
  Rules : Aggregates → List AggregateRule
  /-- Type `api.ExtractTimebased` -/
  ExtractTimebased : Type
  /-- Type `api.PromEncode` -/
  PromEncode : Type
  /-- Type `api.MetricsItems` -/
  MetricsItems : Type
  /-- Type `Visualization` -/
  Visualization : Type
  /-- Type `Visualizations` -/
  Visualizations : Type
  /-- Type `map[string]interface{}`, a decoded sub-section of a definition document -/
  Section : Type
  /-- The value returned by the two config generators and handed to `writeConfigFile` -/
  GeneratedConfig : Type
  /-- The value returned by `generateGrafanaDashboards` -/
  Dashboards : Type
  /-- The file system and whatever else the collaborators read and write -/
  World : Type

variable {F : Foreign}

/-- Source `Definition`. -/
structure Definition (F : Foreign) where
  FileName : String
  Description : String
  Details : String
  Usage : String
  Tags : List String
  TransformNetwork : Option F.TransformNetwork
  Aggregates : Option F.Aggregates
  ExtractTimebased : Option F.ExtractTimebased
  PromEncode : Option F.PromEncode
  Visualization : Option F.Visualization

/-- Source `Definitions`. -/
abbrev Definitions (F : Foreign) := List (Definition F)

/-- Source `ConfGen`. -/
structure ConfGen (F : Foreign) where
  opts : Options
  config : Option F.Config
  transformRules : F.NetworkTransformRules
  aggregates : F.Aggregates
  timebasedTopKs : F.ExtractTimebased
  promMetrics : F.MetricsItems
  visualizations : F.Visualizations
  definitions : Definitions F

/-- Source `DefFile`; the yaml key of each field is listed in `defFileKeys`. -/
structure DefFile (F : Foreign) where
  Description : String
  Details : String
  Usage : String
  Tags : List String
  Transform : F.Section
  Extract : F.Section
  Encode : F.Section
  Visualization : F.Visualization

/-- The yaml struct tags of `DefFile`, in field order. -/
def defFileKeys : List String :=
  ["description", "details", "usage", "tags", "transform", "extract", "encode", "visualization"]

/-- The program state a method of `*ConfGen` can read and change: the receiver and the
outside world. -/
structure State (F : Foreign) where
  cg : ConfGen F
  world : F.World

/-- What `os.FileInfo` tells `getDefinitionFiles`. -/
structure FileInfo where
  Name : String
  IsRegular : Bool

/-- One call of the function `filepath.Walk` is given: the path and the file info, `none`
for a nil info. -/
structure WalkEntry where
  path : String
  f : Option FileInfo

/-- The functions this file calls and does not define.  A method of `*ConfGen` maps the
state before the call to the state after it and the values returned, in Go's order, the
`error` last.  Collaborators are taken to return; logging is not modelled. -/
structure Env (F : Foreign) where
  /-- Library function `os.ReadFile` -/
  ReadFile : F.World → String → Bytes × Option Error
  /-- The calls `filepath.Walk rootPath` makes to its function argument, in order, when
  that argument always returns nil -/
  Walk : F.World → String → List WalkEntry
  /-- Library function `filepath.Ext` -/
  Ext : String → String
  /-- Library function `filepath.Base` -/
  Base : String → String
  /-- Library function `yaml.UnmarshalStrict` into a zero `DefFile`: the `DefFile` left and the error -/
  UnmarshalStrict : Bytes → DefFile F × Option Error
  ParseConfigFile : State F → String → State F × Option F.Config × Option Error
  parseTransform : State F → F.Section → State F × Option F.TransformNetwork × Option Error
  parseExtract : State F → F.Section →
    State F × Option F.Aggregates × Option F.ExtractTimebased × Option Error
  parseEncode : State F → F.Section → Bool → State F × Option F.PromEncode × Option Error
  parseVisualization : State F → F.Visualization →
    State F × Option F.Visualization × Option Error
  dedupe : State F → State F
  GenerateTruncatedConfig : State F → State F × F.GeneratedConfig
  GenerateFlowlogs2PipelineConfig : State F → State F × F.GeneratedConfig
  writeConfigFile : State F → String → F.GeneratedConfig → State F × Option Error
  generateDoc : State F → String → State F × Option Error
  generateGrafanaDashboards : State F → State F × F.Dashboards × Option Error
  generateGrafanaJsonnetFiles : State F → String → F.Dashboards → State F × Option Error
  generateJSONFiles : State F → String → F.Dashboards → State F × Option Error

/-! ## ParseDefinition -/

/-- The skip-tag loops of `ParseDefinition`: some skip tag equals some tag of the
document. -/
def skipTagMatch (skipWithTags tags : List String) : Bool :=
  skipWithTags.any fun skipTag => tags.any fun tag => skipTag == tag

/-- The statement `cg.definitions = append(cg.definitions, definition)`. -/
def appendDefinition (st : State F) (definition : Definition F) : State F :=
  { st with cg := { st.cg with definitions := st.cg.definitions ++ [definition] } }

/-- Source `ConfGen.ParseDefinition`.  The value is the state left behind and the error
returned, or the fault raised. -/
def ParseDefinition (env : Env F) (st : State F) (name : String) (bytes : Bytes) :
    Except Fault (State F × Option Error) :=
  -- check header
  match checkHeader bytes with
  | some err => .ok (st, some err)
  | none =>
  -- parse yaml
  match env.UnmarshalStrict bytes with
  | (_, some err) => .ok (st, some err)
  | (defFile, none) =>
  -- skip if their skip tag match
  if skipTagMatch st.cg.opts.SkipWithTags defFile.Tags then .ok (st, none) else
  -- parse transform
  match env.parseTransform st defFile.Transform with
  | (st1, _, some err) => .ok (st1, some err)
  | (st1, transformNetwork, none) =>
  -- parse extract
  match env.parseExtract st1 defFile.Extract with
  | (st2, _, _, some err) => .ok (st2, some err)
  | (st2, aggregates, extractTimebased, none) =>
  -- parse encode; `definition.Aggregates.Rules` reads through the pointer
  match aggregates with
  | none => .error Fault.nilDereference
  | some a =>
  match env.parseEncode st2 defFile.Encode (decide ((F.Rules a).length > 0)) with
  | (st3, _, some err) => .ok (st3, some err)
  | (st3, promEncode, none) =>
  -- parse visualization
  match env.parseVisualization st3 defFile.Visualization with
  | (st4, _, some err) => .ok (st4, some err)
  | (st4, visualization, none) =>
  .ok (appendDefinition st4
        { FileName := name
          Description := defFile.Description
          Details := defFile.Details
          Usage := defFile.Usage
          Tags := defFile.Tags
          TransformNetwork := transformNetwork
          Aggregates := some a
          ExtractTimebased := extractTimebased
          PromEncode := promEncode
          Visualization := visualization }, none)

/-! ## Run -/

/-- Source `getDefinitionFiles`: the paths `filepath.Walk` visits that are regular files
with the definition extension, other than the base config. -/
def getDefinitionFiles (env : Env F) (world : F.World) (rootPath : String) : List String :=
  (env.Walk world rootPath).foldl
    (fun files entry =>
      match entry.f with
      | none => files
      | some f =>
        if f.IsRegular && env.Ext f.Name == definitionExt
            && env.Base f.Name != configFileName then
          files ++ [entry.path]
        else files)
    []

/-- The loop of `Run` over the definition files: a file that cannot be read or parsed
is passed over. -/
def parseDefinitionFiles (env : Env F) : List String → State F → Except Fault (State F)
  | [], st => .ok st
  | definitionFile :: rest, st =>
    match env.ReadFile st.world definitionFile with
    | (_, some _) => parseDefinitionFiles env rest st
    | (b, none) =>
      match ParseDefinition env st definitionFile b with
      | .error fault => .error fault
      | .ok (st1, some _) => parseDefinitionFiles env rest st1
      | .ok (st1, none) => parseDefinitionFiles env rest st1

/-- The statement `cg.config = config`, the assignment in `Run` and the body of `SetConfig`. -/
def SetConfig (st : State F) (config : Option F.Config) : State F :=
  { st with cg := { st.cg with config := config } }

/-- Source `ConfGen.Run`. -/
def Run (env : Env F) (st : State F) : Except Fault (State F × Option Error) :=
  match env.ParseConfigFile st (st.cg.opts.SrcFolder ++ "/" ++ configFileName) with
  | (st0, config, some err) => .ok (SetConfig st0 config, some err)
  | (st0, config, none) =>
  let st1 := SetConfig st0 config
  let definitionFiles := getDefinitionFiles env st1.world st1.cg.opts.SrcFolder
  match parseDefinitionFiles env definitionFiles st1 with
  | .error fault => .error fault
  | .ok st2 =>
  let st3 := env.dedupe st2
  if st3.cg.opts.GenerateStages.length ≠ 0 then
    match env.GenerateTruncatedConfig st3 with
    | (st4, cfg) =>
    match env.writeConfigFile st4 st4.cg.opts.DestConfFile cfg with
    | (st5, some err) => .ok (st5, some err)
    | (st5, none) => .ok (st5, none)
  else
  match env.GenerateFlowlogs2PipelineConfig st3 with
  | (st4, config) =>
  match env.writeConfigFile st4 st4.cg.opts.DestConfFile config with
  | (st5, some err) => .ok (st5, some err)
  | (st5, none) =>
  match env.generateDoc st5 st5.cg.opts.DestDocFile with
  | (st6, some err) => .ok (st6, some err)
  | (st6, none) =>
  match env.generateGrafanaDashboards st6 with
  | (st7, _, some err) => .ok (st7, some err)
  | (st7, dashboards, none) =>
  match env.generateGrafanaJsonnetFiles st7 st7.cg.opts.DestGrafanaJsonnetFolder dashboards with
  | (st8, some err) => .ok (st8, some err)
  | (st8, none) =>
  match env.generateJSONFiles st8 st8.cg.opts.DestDashboardFolder dashboards with
  | (st9, some err) => .ok (st9, some err)
  | (st9, none) => .ok (st9, none)

/-! ## Properties of the collaborators used as hypotheses -/

/-- Modelled from the spec: the extractors `parseTransform`, `parseExtract`, `parseEncode`
and `parseVisualization`, defined in other files of the package, leave `cg.definitions` as
they found it (§3: a `Definition` is created by the parser, appended to the list and never
changed afterwards). -/
def PreservesDefinitions (env : Env F) : Prop :=
  (∀ st x, (env.parseTransform st x).1.cg.definitions = st.cg.definitions) ∧
  (∀ st x, (env.parseExtract st x).1.cg.definitions = st.cg.definitions) ∧
  (∀ st x flag, (env.parseEncode st x flag).1.cg.definitions = st.cg.definitions) ∧
  (∀ st x, (env.parseVisualization st x).1.cg.definitions = st.cg.definitions)

/-- The documented contract of `yaml.UnmarshalStrict` for the target `DefFile`: a document
with a top-level key that is no yaml key of `DefFile` is refused.  `keysOf` gives the
top-level keys of a document. -/
def StrictDecoder (keysOf : Bytes → List String) (env : Env F) : Prop :=
  ∀ bytes, (∃ key ∈ keysOf bytes, key ∉ defFileKeys) → (env.UnmarshalStrict bytes).2 ≠ none

/-! ## A small instance

Documents are the marker followed by one letter per top-level key; sub-sections and rule
fragments are lists of names; the world is a list of files. -/

@[reducible]
def demoForeign : Foreign where
  Config := String
  TransformNetwork := List String
  NetworkTransformRules := List String
  Aggregates := List String
  AggregateRule := String
  Rules := fun a => a
  ExtractTimebased := List String
  PromEncode := List String
  MetricsItems := List String
  Visualization := List String
  Visualizations := List String
  Section := List String
  GeneratedConfig := List String
  Dashboards := List String
  World := List (String × Bytes)

/-- The top-level key a letter stands for; `a` is an extract section with aggregates,
`b` one with both aggregates and time-based rules. -/
def demoKey (b : UInt8) : String :=
  if b = 100 then "description"
  else if b = 116 then "tags"
  else if b = 120 then "transform"
  else if b = 97 then "extract"
  else if b = 98 then "extract"
  else if b = 110 then "encode"
  else "other"

def demoKeysOf (bytes : Bytes) : List String := (bytes.drop 12).map demoKey

def demoUnmarshalStrict (bytes : Bytes) : DefFile demoForeign × Option Error :=
  let keys := demoKeysOf bytes
  if keys.all (fun key => defFileKeys.contains key) then
    ({ Description := if keys.contains "description" then "bytes per second" else ""
       Details := ""
       Usage := ""
       Tags := if keys.contains "tags" then ["experimental"] else []
       Transform := if keys.contains "transform" then ["bytes_total"] else []
       Extract :=
         if (bytes.drop 12).contains 98 then ["aggregates", "timebased"]
         else if keys.contains "extract" then ["aggregates"] else []
       Encode := if keys.contains "encode" then ["bytes_metric"] else []
       Visualization := [] }, none)
  else
    ({ Description := "", Details := "", Usage := "", Tags := [], Transform := [],
       Extract := [], Encode := [], Visualization := [] },
     some ⟨"field not found in type confgen.DefFile"⟩)

def demoLookup (world : List (String × Bytes)) (path : String) : Option Bytes :=
  (world.find? (fun file => file.1 == path)).map (fun file => file.2)

/-- A writer: it fails on the empty path and adds an empty file otherwise. -/
def demoWrite (st : State demoForeign) (path : String) : State demoForeign × Option Error :=
  if path = "" then (st, some ⟨"cannot write"⟩)
  else ({ st with world := st.world ++ [(path, [])] }, none)

def demoEnv : Env demoForeign where
  ReadFile := fun world path =>
    match demoLookup world path with
    | some b => (b, none)
    | none => ([], some ⟨"no such file"⟩)
  Walk := fun world rootPath =>
    world.map (fun file =>
      ⟨file.1, some ⟨String.mk (file.1.toList.drop (rootPath.length + 1)), true⟩⟩)
  Ext := fun _ => ".yaml"
  Base := fun name => name
  UnmarshalStrict := demoUnmarshalStrict
  ParseConfigFile := fun st path =>
    match demoLookup st.world path with
    | some _ => (st, some path, none)
    | none => (st, none, some ⟨"no base config"⟩)
  parseTransform := fun st x =>
    ({ st with cg := { st.cg with transformRules := st.cg.transformRules ++ x } },
      if x = [] then none else some x, none)
  parseExtract := fun st x =>
    if x.contains "aggregates" && x.contains "timebased" then
      (st, none, none, some ⟨"both aggregates and timebased"⟩)
    else if x.contains "aggregates" then
      ({ st with cg := { st.cg with aggregates := st.cg.aggregates ++ ["bytes_sum"] } },
        some ["bytes_sum"], none, none)
    else (st, none, none, none)
  parseEncode := fun st x flag =>
    (st, if x = [] then none else some (if flag then x ++ ["agg"] else x), none)
  parseVisualization := fun st x => (st, if x = [] then none else some x, none)
  dedupe := fun st => { st with cg := { st.cg with transformRules := st.cg.transformRules.dedup } }
  GenerateTruncatedConfig := fun st => (st, st.cg.opts.GenerateStages)
  GenerateFlowlogs2PipelineConfig := fun st => (st, st.cg.transformRules)
  writeConfigFile := fun st path _ => demoWrite st path
  generateDoc := fun st path => demoWrite st path
  generateGrafanaDashboards := fun st => (st, [], none)
  generateGrafanaJsonnetFiles := fun st path _ => demoWrite st path
  generateJSONFiles := fun st path _ => demoWrite st path

def demoOptions : Options where
  SrcFolder := "defs"
  DestConfFile := "out/pipeline.yaml"
  DestDocFile := "out/doc.md"
  DestGrafanaJsonnetFolder := "out/jsonnet"
  DestDashboardFolder := "out/dashboards"
  SkipWithTags := ["experimental"]
  GenerateStages := []

/-- The marker, byte by byte. -/
def demoHeader : Bytes := [35, 102, 108, 112, 95, 99, 111, 110, 102, 103, 101, 110]

def demoState : State demoForeign where
  cg :=
    { opts := demoOptions
      config := none
      transformRules := []
      aggregates := []
      timebasedTopKs := []
      promMetrics := []
      visualizations := []
      definitions := [] }
  world :=
    [("defs/config.yaml", []), ("defs/bad.yaml", [35, 102, 108, 112]),
     ("defs/a.yaml", demoHeader ++ [120, 97, 110])]

/-- The collaborators of `demoEnv`, with an extract extractor that returns an aggregates
value for an absent sub-section too. -/
def demoTotalEnv : Env demoForeign :=
  { demoEnv with
    parseExtract := fun st x =>
      if x.contains "aggregates" && x.contains "timebased" then
        (st, none, none, some ⟨"both aggregates and timebased"⟩)
      else if x.contains "aggregates" then (st, some ["bytes_sum"], none, none)
      else (st, some [], none, none) }

/-- The instance asked for a truncated configuration. -/
def demoTruncatedState : State demoForeign :=
  { demoState with
    cg := { demoState.cg with opts := { demoOptions with GenerateStages := ["transform"] } } }

/-- The instance with a documentation path that cannot be written. -/
def demoNoDocState : State demoForeign :=
  { demoState with cg := { demoState.cg with opts := { demoOptions with DestDocFile := "" } } }

/-- The instance without any file: the base config cannot be loaded. -/
def demoEmptyState : State demoForeign := { demoState with world := [] }

/-- What the loop of `Run` leaves of an instance: the base config is set, `defs/bad.yaml`
was passed over and `defs/a.yaml` was parsed. -/
def demoParsed (st : State demoForeign) : State demoForeign :=
  appendDefinition
    { st with
      cg :=
        { st.cg with
          config := some "defs/config.yaml"
          transformRules := ["bytes_total"]
          aggregates := ["bytes_sum"] } }
    { FileName := "defs/a.yaml", Description := "", Details := "", Usage := "", Tags := [],
      TransformNetwork := some ["bytes_total"], Aggregates := some ["bytes_sum"],
      ExtractTimebased := none, PromEncode := some ["bytes_metric", "agg"],
      Visualization := none }

/-- The state after empty files were written at the given paths. -/
def demoWritten (st : State demoForeign) (paths : List String) : State demoForeign :=
  { st with world := st.world ++ paths.map (fun path => (path, [])) }

/-! ## The header check -/

/-- The marker, byte by byte. -/
theorem stringBytes_definitionHeader :
    stringBytes definitionHeader = [35, 102, 108, 112, 95, 99, 111, 110, 102, 103, 101, 110] := by
  decide

theorem zero_not_mem_definitionHeader : (0 : UInt8) ∉ stringBytes definitionHeader := by
  decide

/-- The buffer `checkHeader` compares: the first bytes of the input when it is long
enough, the input padded with zeros otherwise. -/
theorem copy_make (n : Nat) (bytes : Bytes) :
    copy (make n) bytes = bytes.take n ++ List.replicate (n - bytes.length) 0 := by
  unfold copy make
  rw [List.length_replicate, List.drop_replicate]
  rcases Nat.le_total n bytes.length with h | h
  · rw [Nat.min_eq_left h, Nat.sub_self, Nat.sub_eq_zero_of_le h]
  · rw [Nat.min_eq_right h, List.take_of_length_le (le_refl _), List.take_of_length_le h]

theorem checkHeader_eq_none_iff (bytes : Bytes) :
    checkHeader bytes = none ↔
      bytes.take (stringBytes definitionHeader).length = stringBytes definitionHeader := by
  unfold checkHeader
  simp only [ne_eq, ite_not, copy_make]
  constructor
  · intro h
    split at h
    · rename_i heq
      rcases Nat.lt_or_ge bytes.length (stringBytes definitionHeader).length with hlt | hge
      · exfalso
        apply zero_not_mem_definitionHeader
        rw [← heq]
        apply List.mem_append_right
        exact List.mem_replicate.mpr ⟨by omega, rfl⟩
      · rw [Nat.sub_eq_zero_of_le hge] at heq
        simpa using heq
    · cases h
  · intro h
    have hlen : (stringBytes definitionHeader).length ≤ bytes.length := by
      have := congrArg List.length h
      rw [List.length_take] at this
      omega
    rw [Nat.sub_eq_zero_of_le hlen, h]
    simp

theorem checkHeader_eq_wrong_header (bytes : Bytes) (h : checkHeader bytes ≠ none) :
    checkHeader bytes = some ⟨"wrong header"⟩ := by
  by_cases hne :
      copy (make (stringBytes definitionHeader).length) bytes = stringBytes definitionHeader
  · simp [checkHeader, hne] at h
  · simp [checkHeader, hne]

/-- C9. `checkHeader` returns nil exactly when the marker `#flp_confgen` is a list
beginning of the input, for every byte string, the empty one and those shorter than the
marker included; otherwise it returns the error `wrong header`, which happens exactly when
the first 12 bytes are not the marker; and the result is decided by the first 12 bytes
alone. -/
theorem checkHeader_nil_iff_marker (bytes : Bytes) :
    (checkHeader bytes = none ↔ stringBytes definitionHeader <+: bytes) ∧
    (checkHeader bytes = some ⟨"wrong header"⟩ ↔
      bytes.take 12 ≠ stringBytes definitionHeader) ∧
    (checkHeader bytes = none ∨ checkHeader bytes = some ⟨"wrong header"⟩) ∧
    (∀ rest : Bytes, checkHeader (stringBytes definitionHeader ++ rest) = none) ∧
    checkHeader bytes = checkHeader (bytes.take 12) := by
  have hlen : (stringBytes definitionHeader).length = 12 := by decide
  have key : ∀ b : Bytes, checkHeader b = none ↔ b.take 12 = stringBytes definitionHeader := by
    intro b
    rw [checkHeader_eq_none_iff, hlen]
  have hpre : ∀ b : Bytes, b.take 12 = stringBytes definitionHeader ↔
      stringBytes definitionHeader <+: b := by
    intro b
    rw [List.prefix_iff_eq_take, hlen]
    exact eq_comm
  have hdich : ∀ b : Bytes, checkHeader b = none ∨ checkHeader b = some ⟨"wrong header"⟩ := by
    intro b
    by_cases hb : checkHeader b = none
    · exact Or.inl hb
    · exact Or.inr (checkHeader_eq_wrong_header b hb)
  refine ⟨(key bytes).trans (hpre bytes), ?_, hdich bytes, ?_, ?_⟩
  · constructor
    · intro h hk
      rw [(key bytes).mpr hk] at h
      cases h
    · intro h
      rcases hdich bytes with hn | hw
      · exact absurd ((key bytes).mp hn) h
      · exact hw
  · intro rest
    rw [key, ← hlen, List.take_left]
  · by_cases hb : bytes.take 12 = stringBytes definitionHeader
    · rw [(key bytes).mpr hb, (key (bytes.take 12)).mpr (by rw [List.take_take]; simpa using hb)]
    · have h1 : checkHeader bytes = some ⟨"wrong header"⟩ := by
        rcases hdich bytes with hn | hw
        · exact absurd ((key bytes).mp hn) hb
        · exact hw
      have h2 : checkHeader (bytes.take 12) = some ⟨"wrong header"⟩ := by
        rcases hdich (bytes.take 12) with hn | hw
        · have := (key (bytes.take 12)).mp hn
          rw [List.take_take] at this
          exact absurd (by simpa using this) hb
        · exact hw
      rw [h1, h2]


/-! ## ParseDefinition -/

/-- C1. A document whose first `len("#flp_confgen")` bytes are not the marker makes
`ParseDefinition` return the error `wrong header`, for every state and name, and leaves
the state, the definitions list in particular, as it was. -/
theorem ParseDefinition_header_mismatch (env : Env F) (st : State F) (name : String)
    (bytes : Bytes)
    (h : bytes.take (stringBytes definitionHeader).length ≠ stringBytes definitionHeader) :
    ∃ st1 err, ParseDefinition env st name bytes = .ok (st1, some err) ∧
      err = ⟨"wrong header"⟩ ∧ st1.cg.definitions = st.cg.definitions ∧ st1 = st := by
  have hne : checkHeader bytes ≠ none := fun hc => h ((checkHeader_eq_none_iff bytes).mp hc)
  have hw := checkHeader_eq_wrong_header bytes hne
  refine ⟨st, ⟨"wrong header"⟩, ?_, rfl, rfl, rfl⟩
  simp [ParseDefinition, hw]

theorem ParseDefinition_header_mismatch_witness :
    ∃ st1 err, ParseDefinition demoEnv demoState "defs/b.yaml" [35, 102, 108, 112] =
        .ok (st1, some err) ∧
      err = ⟨"wrong header"⟩ ∧ st1.cg.definitions = demoState.cg.definitions ∧
      st1 = demoState :=
  ParseDefinition_header_mismatch demoEnv demoState "defs/b.yaml" [35, 102, 108, 112]
    (by decide)

theorem skipTagMatch_eq_true_iff (skipWithTags tags : List String) :
    skipTagMatch skipWithTags tags = true ↔ ∃ tag, tag ∈ tags ∧ tag ∈ skipWithTags := by
  simp only [skipTagMatch, List.any_eq_true, beq_iff_eq]
  constructor
  · rintro ⟨s, hs, t, ht, rfl⟩
    exact ⟨s, ht, hs⟩
  · rintro ⟨t, ht, hs⟩
    exact ⟨t, hs, t, ht, rfl⟩

/-- C2. When the tags decoded from a document share a tag with `opts.SkipWithTags`,
`ParseDefinition` returns nil and leaves the whole state as it was, whatever the
transform, extract, encode and visualization extractors are: none of them is called, no
`Definition` is appended and no global collection changes. -/
theorem ParseDefinition_skip_tag (env : Env F) (st : State F) (name : String) (bytes : Bytes)
    (defFile : DefFile F) (tag : String)
    (hheader : checkHeader bytes = none)
    (hdecode : env.UnmarshalStrict bytes = (defFile, none))
    (htag : tag ∈ defFile.Tags) (hskip : tag ∈ st.cg.opts.SkipWithTags) :
    ParseDefinition env st name bytes = .ok (st, none) ∧
    ∀ env1 : Env F, env1.UnmarshalStrict = env.UnmarshalStrict →
      ParseDefinition env1 st name bytes = .ok (st, none) := by
  have hm : skipTagMatch st.cg.opts.SkipWithTags defFile.Tags = true :=
    (skipTagMatch_eq_true_iff _ _).mpr ⟨tag, htag, hskip⟩
  have key : ∀ env1 : Env F, env1.UnmarshalStrict = env.UnmarshalStrict →
      ParseDefinition env1 st name bytes = .ok (st, none) := by
    intro env1 h1
    simp [ParseDefinition, hheader, h1, hdecode, hm]
  exact ⟨key env rfl, key⟩

theorem ParseDefinition_skip_tag_witness :
    ParseDefinition demoEnv demoState "defs/t.yaml" (demoHeader ++ [116, 120]) =
      .ok (demoState, none) ∧
    ∀ env1 : Env demoForeign, env1.UnmarshalStrict = demoEnv.UnmarshalStrict →
      ParseDefinition env1 demoState "defs/t.yaml" (demoHeader ++ [116, 120]) =
        .ok (demoState, none) :=
  ParseDefinition_skip_tag demoEnv demoState "defs/t.yaml" (demoHeader ++ [116, 120])
    (demoEnv.UnmarshalStrict (demoHeader ++ [116, 120])).1 "experimental"
    (by decide) rfl (by decide) (by decide)

/-- The document of `demoState` that declares a transform, an extract and an encode
section, and the state its extractors leave. -/
theorem demo_parse_a :
    ParseDefinition demoEnv demoState "defs/a.yaml" (demoHeader ++ [120, 97, 110]) =
      .ok (appendDefinition
        { demoState with
          cg := { demoState.cg with transformRules := ["bytes_total"], aggregates := ["bytes_sum"] } }
        { FileName := "defs/a.yaml", Description := "", Details := "", Usage := "", Tags := [],
          TransformNetwork := some ["bytes_total"], Aggregates := some ["bytes_sum"],
          ExtractTimebased := none, PromEncode := some ["bytes_metric", "agg"],
          Visualization := none }, none) := by
  rfl

/-- C3. `ParseDefinition` is atomic on failure for the definitions list: whenever it
returns a non-nil error, from the header check, the strict decode or any of the four
extractors, the definitions list is the one before the call.  The extractors are taken not
to write the definitions list themselves. -/
theorem ParseDefinition_error_keeps_definitions (env : Env F) (hframe : PreservesDefinitions env)
    (st st1 : State F) (name : String) (bytes : Bytes) (err : Error)
    (h : ParseDefinition env st name bytes = .ok (st1, some err)) :
    st1.cg.definitions = st.cg.definitions := by
  obtain ⟨hT, hE, hN, hV⟩ := hframe
  unfold ParseDefinition at h
  split at h
  · simp only [Except.ok.injEq, Prod.mk.injEq] at h
    rw [← h.1]
  split at h
  · simp only [Except.ok.injEq, Prod.mk.injEq] at h
    rw [← h.1]
  rename_i defFile _
  split at h
  · simp at h
  split at h
  · rename_i s1 _ _ h1
    simp only [Except.ok.injEq, Prod.mk.injEq] at h
    have e1 := hT st defFile.Transform
    rw [h1] at e1
    rw [← h.1]
    exact e1
  rename_i s1 _ h1
  have e1 := hT st defFile.Transform
  rw [h1] at e1
  split at h
  · rename_i s2 _ _ _ h2
    simp only [Except.ok.injEq, Prod.mk.injEq] at h
    have e2 := hE s1 defFile.Extract
    rw [h2] at e2
    rw [← h.1]
    exact e2.trans e1
  rename_i s2 aggregates _ h2
  have e2 := hE s1 defFile.Extract
  rw [h2] at e2
  split at h
  · cases h
  rename_i a
  split at h
  · rename_i s3 _ _ h3
    simp only [Except.ok.injEq, Prod.mk.injEq] at h
    have e3 := hN s2 defFile.Encode (decide ((F.Rules a).length > 0))
    rw [h3] at e3
    rw [← h.1]
    exact e3.trans (e2.trans e1)
  rename_i s3 _ h3
  have e3 := hN s2 defFile.Encode (decide ((F.Rules a).length > 0))
  rw [h3] at e3
  split at h
  · rename_i s4 _ _ h4
    simp only [Except.ok.injEq, Prod.mk.injEq] at h
    have e4 := hV s3 defFile.Visualization
    rw [h4] at e4
    rw [← h.1]
    exact e4.trans (e3.trans (e2.trans e1))
  · simp at h

theorem demoEnv_preservesDefinitions : PreservesDefinitions demoEnv := by
  refine ⟨fun _ _ => rfl, ?_, fun _ _ _ => rfl, fun _ _ => rfl⟩
  intro st x
  simp only [demoEnv]
  split_ifs <;> rfl

theorem ParseDefinition_error_keeps_definitions_witness :
    ParseDefinition demoEnv demoState "defs/both.yaml" (demoHeader ++ [120, 98]) =
      .ok ({ demoState with cg := { demoState.cg with transformRules := ["bytes_total"] } },
        some ⟨"both aggregates and timebased"⟩) ∧
    ({ demoState with cg := { demoState.cg with transformRules := ["bytes_total"] } } :
      State demoForeign).cg.definitions = demoState.cg.definitions :=
  ⟨by rfl, ParseDefinition_error_keeps_definitions demoEnv demoEnv_preservesDefinitions demoState _
    "defs/both.yaml" (demoHeader ++ [120, 98]) ⟨"both aggregates and timebased"⟩ (by rfl)⟩

/-- C4. For a document that passes the header check and the strict decode, matches no
skip tag, and whose four extractors are called and return no error, `ParseDefinition`
returns nil and the definitions list becomes the old list followed by one `Definition`:
its `FileName` is the given name, its `Description`, `Details`, `Usage` and `Tags` are the
decoded ones, its rule fragments are what the extractors returned.  The encode extractor
is reached with the aggregates fragment the extract extractor returned, read through its
pointer.  The extractors are taken not to write the definitions list themselves. -/
theorem ParseDefinition_success_appends (env : Env F) (hframe : PreservesDefinitions env)
    (st st1 st2 st3 st4 : State F) (name : String) (bytes : Bytes) (defFile : DefFile F)
    (transformNetwork : Option F.TransformNetwork) (a : F.Aggregates)
    (extractTimebased : Option F.ExtractTimebased) (promEncode : Option F.PromEncode)
    (visualization : Option F.Visualization)
    (hheader : checkHeader bytes = none)
    (hdecode : env.UnmarshalStrict bytes = (defFile, none))
    (hskip : ∀ tag ∈ defFile.Tags, tag ∉ st.cg.opts.SkipWithTags)
    (htransform : env.parseTransform st defFile.Transform = (st1, transformNetwork, none))
    (hextract : env.parseExtract st1 defFile.Extract = (st2, some a, extractTimebased, none))
    (hencode : env.parseEncode st2 defFile.Encode (decide ((F.Rules a).length > 0)) =
      (st3, promEncode, none))
    (hvisualization : env.parseVisualization st3 defFile.Visualization =
      (st4, visualization, none)) :
    ∃ st5, ParseDefinition env st name bytes = .ok (st5, none) ∧
      st5.cg.definitions = st.cg.definitions ++
        [{ FileName := name
           Description := defFile.Description
           Details := defFile.Details
           Usage := defFile.Usage
           Tags := defFile.Tags
           TransformNetwork := transformNetwork
           Aggregates := some a
           ExtractTimebased := extractTimebased
           PromEncode := promEncode
           Visualization := visualization }] := by
  obtain ⟨hT, hE, hN, hV⟩ := hframe
  have hm : skipTagMatch st.cg.opts.SkipWithTags defFile.Tags = false := by
    rw [Bool.eq_false_iff]
    intro hc
    obtain ⟨tag, h1, h2⟩ := (skipTagMatch_eq_true_iff _ _).mp hc
    exact hskip tag h1 h2
  have e1 := hT st defFile.Transform
  rw [htransform] at e1
  have e2 := hE st1 defFile.Extract
  rw [hextract] at e2
  have e3 := hN st2 defFile.Encode (decide ((F.Rules a).length > 0))
  rw [hencode] at e3
  have e4 := hV st3 defFile.Visualization
  rw [hvisualization] at e4
  have e : st4.cg.definitions = st.cg.definitions := e4.trans (e3.trans (e2.trans e1))
  have hp : ParseDefinition env st name bytes = .ok (appendDefinition st4
      { FileName := name
        Description := defFile.Description
        Details := defFile.Details
        Usage := defFile.Usage
        Tags := defFile.Tags
        TransformNetwork := transformNetwork
        Aggregates := some a
        ExtractTimebased := extractTimebased
        PromEncode := promEncode
        Visualization := visualization }, none) := by
    simp only [ParseDefinition, hheader, hdecode, hm, htransform, hextract, hencode,
      hvisualization]
    rfl
  refine ⟨_, hp, ?_⟩
  simp only [appendDefinition, e]

theorem ParseDefinition_success_appends_witness :
    ∃ st5, ParseDefinition demoEnv demoState "defs/a.yaml" (demoHeader ++ [120, 97, 110]) =
        .ok (st5, none) ∧
      st5.cg.definitions = demoState.cg.definitions ++
        [{ FileName := "defs/a.yaml"
           Description := ""
           Details := ""
           Usage := ""
           Tags := []
           TransformNetwork := some ["bytes_total"]
           Aggregates := some ["bytes_sum"]
           ExtractTimebased := none
           PromEncode := some ["bytes_metric", "agg"]
           Visualization := none }] :=
  ParseDefinition_success_appends demoEnv demoEnv_preservesDefinitions demoState
    { demoState with cg := { demoState.cg with transformRules := ["bytes_total"] } }
    { demoState with
      cg := { demoState.cg with transformRules := ["bytes_total"], aggregates := ["bytes_sum"] } }
    { demoState with
      cg := { demoState.cg with transformRules := ["bytes_total"], aggregates := ["bytes_sum"] } }
    { demoState with
      cg := { demoState.cg with transformRules := ["bytes_total"], aggregates := ["bytes_sum"] } }
    "defs/a.yaml" (demoHeader ++ [120, 97, 110])
    (demoEnv.UnmarshalStrict (demoHeader ++ [120, 97, 110])).1
    (some ["bytes_total"]) ["bytes_sum"] none (some ["bytes_metric", "agg"]) none
    (by decide) (by rfl) (by decide) (by rfl) (by rfl) (by rfl) (by rfl)

theorem mem_defFileKeys (key : String) :
    key ∈ defFileKeys ↔
      key = "description" ∨ key = "details" ∨ key = "usage" ∨ key = "tags" ∨
      key = "transform" ∨ key = "extract" ∨ key = "encode" ∨ key = "visualization" := by
  simp [defFileKeys]

theorem demoEnv_strictDecoder : StrictDecoder demoKeysOf demoEnv := by
  intro bytes h
  obtain ⟨key, hkey, hunknown⟩ := h
  have hall : ¬ ∀ x ∈ demoKeysOf bytes, x ∈ defFileKeys := fun hc => hunknown (hc key hkey)
  simp [demoEnv, demoUnmarshalStrict, hall]

/-- C8. The yaml keys of `DefFile` are `description`, `details`, `usage`, `tags`,
`transform`, `extract`, `encode` and `visualization`.  With a decoder that keeps the
contract of `yaml.UnmarshalStrict`, a document that has the marker and a top-level key
outside that list makes the strict decode fail, and `ParseDefinition` returns that very
error and leaves the state, the definitions list in particular, as it was. -/
theorem ParseDefinition_unknown_key (keysOf : Bytes → List String) (env : Env F)
    (hstrict : StrictDecoder keysOf env) (st : State F) (name : String) (bytes : Bytes)
    (key : String) (hheader : checkHeader bytes = none) (hkey : key ∈ keysOf bytes)
    (hunknown : key ∉ defFileKeys) :
    (∀ k, k ∈ defFileKeys ↔
      k = "description" ∨ k = "details" ∨ k = "usage" ∨ k = "tags" ∨
      k = "transform" ∨ k = "extract" ∨ k = "encode" ∨ k = "visualization") ∧
    ∃ st1 err, (env.UnmarshalStrict bytes).2 = some err ∧
      ParseDefinition env st name bytes = .ok (st1, some err) ∧
      st1.cg.definitions = st.cg.definitions ∧ st1 = st := by
  refine ⟨mem_defFileKeys, ?_⟩
  have hne := hstrict bytes ⟨key, hkey, hunknown⟩
  obtain ⟨err, herr⟩ := Option.ne_none_iff_exists'.mp hne
  refine ⟨st, err, herr, ?_, rfl, rfl⟩
  have hpair : env.UnmarshalStrict bytes = ((env.UnmarshalStrict bytes).1, some err) := by
    rw [← herr]
  simp only [ParseDefinition, hheader]
  rw [hpair]

theorem ParseDefinition_unknown_key_witness :
    (∀ k, k ∈ defFileKeys ↔
      k = "description" ∨ k = "details" ∨ k = "usage" ∨ k = "tags" ∨
      k = "transform" ∨ k = "extract" ∨ k = "encode" ∨ k = "visualization") ∧
    ∃ st1 err, (demoEnv.UnmarshalStrict (demoHeader ++ [120, 122])).2 = some err ∧
      ParseDefinition demoEnv demoState "defs/z.yaml" (demoHeader ++ [120, 122]) =
        .ok (st1, some err) ∧
      st1.cg.definitions = demoState.cg.definitions ∧ st1 = demoState :=
  ParseDefinition_unknown_key demoKeysOf demoEnv demoEnv_strictDecoder demoState "defs/z.yaml"
    (demoHeader ++ [120, 122]) "other" (by decide) (by decide) (by decide)

/-- When the extract extractor returns no error and a nil aggregates fragment, the
expression `definition.Aggregates.Rules` faults and the encode extractor is not reached. -/
theorem ParseDefinition_nil_aggregates (env : Env F) (st st1 st2 : State F) (name : String)
    (bytes : Bytes) (defFile : DefFile F) (transformNetwork : Option F.TransformNetwork)
    (extractTimebased : Option F.ExtractTimebased)
    (hheader : checkHeader bytes = none)
    (hdecode : env.UnmarshalStrict bytes = (defFile, none))
    (hskip : skipTagMatch st.cg.opts.SkipWithTags defFile.Tags = false)
    (htransform : env.parseTransform st defFile.Transform = (st1, transformNetwork, none))
    (hextract : env.parseExtract st1 defFile.Extract = (st2, none, extractTimebased, none)) :
    ParseDefinition env st name bytes = .error Fault.nilDereference := by
  simp only [ParseDefinition, hheader, hdecode, hskip, htransform, hextract]
  rfl

/-- When the extract extractor never returns a nil aggregates fragment without an error,
`ParseDefinition` does not fault: it returns. -/
theorem ParseDefinition_returns (env : Env F)
    (hagg : ∀ st x, (env.parseExtract st x).2.2.2 = none → (env.parseExtract st x).2.1 ≠ none)
    (st : State F) (name : String) (bytes : Bytes) :
    ∃ r, ParseDefinition env st name bytes = .ok r := by
  have key : ∀ s x s2 a t, env.parseExtract s x = (s2, a, t, none) → a ≠ none := by
    intro s x s2 a t h
    have hnil := hagg s x
    rw [h] at hnil
    exact hnil rfl
  unfold ParseDefinition
  split
  · exact ⟨_, rfl⟩
  split
  · exact ⟨_, rfl⟩
  split
  · exact ⟨_, rfl⟩
  split
  · exact ⟨_, rfl⟩
  split
  · exact ⟨_, rfl⟩
  rename_i h2
  split
  · exact absurd rfl (key _ _ _ _ _ h2)
  split
  · exact ⟨_, rfl⟩
  split <;> exact ⟨_, rfl⟩

theorem demoTotalEnv_returns (st : State demoForeign) (name : String) (bytes : Bytes) :
    ∃ r, ParseDefinition demoTotalEnv st name bytes = .ok r := by
  apply ParseDefinition_returns
  intro s x
  simp only [demoTotalEnv]
  split_ifs <;> simp

/-- C10, refuted as stated.  The claim takes an extract extractor that returns no error
and nil for the aggregates fragment, as the one of `demoEnv` does for a document without an
extract section.  This document has the marker, decodes, matches no skip tag and its
transform extractor succeeds; `ParseDefinition` then faults on the nil pointer, where the
claim has it pass `false` to the encode extractor and complete. -/
theorem ParseDefinition_nil_fragment_faults :
    checkHeader (demoHeader ++ [120]) = none ∧
    (demoEnv.UnmarshalStrict (demoHeader ++ [120])).2 = none ∧
    skipTagMatch demoState.cg.opts.SkipWithTags
      (demoEnv.UnmarshalStrict (demoHeader ++ [120])).1.Tags = false ∧
    (demoEnv.parseTransform demoState
      (demoEnv.UnmarshalStrict (demoHeader ++ [120])).1.Transform).2.2 = none ∧
    (demoEnv.parseExtract
      (demoEnv.parseTransform demoState
        (demoEnv.UnmarshalStrict (demoHeader ++ [120])).1.Transform).1
      (demoEnv.UnmarshalStrict (demoHeader ++ [120])).1.Extract).2 = (none, none, none) ∧
    ParseDefinition demoEnv demoState "defs/x.yaml" (demoHeader ++ [120]) =
      .error Fault.nilDereference := by
  refine ⟨by decide, by rfl, by rfl, by rfl, by rfl, by rfl⟩

/-- C10, as amended.  For a document that passes the header check, the decode and the skip
filter and whose transform and extract extractors return no error, `ParseDefinition` reads
the aggregates fragment through its pointer without a guard.  With a non-nil fragment the
flag is true exactly when the fragment has a rule, the encode extractor is called in the
state the extract extractor left, at that flag and no other, its error is returned as it
is, and when it and the visualization extractor succeed the run completes and appends the
`Definition`.  With a nil fragment the read faults before the encode extractor is
called. -/
theorem ParseDefinition_encode_flag (env : Env F) (st st1 st2 : State F) (name : String)
    (bytes : Bytes) (defFile : DefFile F) (transformNetwork : Option F.TransformNetwork)
    (aggregates : Option F.Aggregates) (extractTimebased : Option F.ExtractTimebased)
    (hheader : checkHeader bytes = none)
    (hdecode : env.UnmarshalStrict bytes = (defFile, none))
    (hskip : ∀ tag ∈ defFile.Tags, tag ∉ st.cg.opts.SkipWithTags)
    (htransform : env.parseTransform st defFile.Transform = (st1, transformNetwork, none))
    (hextract : env.parseExtract st1 defFile.Extract =
      (st2, aggregates, extractTimebased, none)) :
    (∀ a, aggregates = some a →
      (decide ((F.Rules a).length > 0) = true ↔ ∃ rule, rule ∈ F.Rules a) ∧
      (∀ parseEncode1 : State F → F.Section → Bool → State F × Option F.PromEncode × Option Error,
        parseEncode1 st2 defFile.Encode (decide ((F.Rules a).length > 0)) =
          env.parseEncode st2 defFile.Encode (decide ((F.Rules a).length > 0)) →
        ParseDefinition { env with parseEncode := parseEncode1 } st name bytes =
          ParseDefinition env st name bytes) ∧
      (∀ st3 promEncode err,
        env.parseEncode st2 defFile.Encode (decide ((F.Rules a).length > 0)) =
          (st3, promEncode, some err) →
        ParseDefinition env st name bytes = .ok (st3, some err)) ∧
      (∀ st3 promEncode st4 visualization,
        env.parseEncode st2 defFile.Encode (decide ((F.Rules a).length > 0)) =
          (st3, promEncode, none) →
        env.parseVisualization st3 defFile.Visualization = (st4, visualization, none) →
        ParseDefinition env st name bytes =
          .ok (appendDefinition st4
            { FileName := name
              Description := defFile.Description
              Details := defFile.Details
              Usage := defFile.Usage
              Tags := defFile.Tags
              TransformNetwork := transformNetwork
              Aggregates := some a
              ExtractTimebased := extractTimebased
              PromEncode := promEncode
              Visualization := visualization }, none))) ∧
    (aggregates = none → ParseDefinition env st name bytes = .error Fault.nilDereference) := by
  have hm : skipTagMatch st.cg.opts.SkipWithTags defFile.Tags = false := by
    rw [Bool.eq_false_iff]
    intro hc
    obtain ⟨tag, h1, h2⟩ := (skipTagMatch_eq_true_iff _ _).mp hc
    exact hskip tag h1 h2
  constructor
  · intro a ha
    subst ha
    refine ⟨?_, ?_, ?_, ?_⟩
    · rw [decide_eq_true_iff]
      constructor
      · intro hlen
        exact List.exists_mem_of_length_pos hlen
      · rintro ⟨rule, hrule⟩
        exact List.length_pos_of_mem hrule
    · intro parseEncode1 h1
      simp only [ParseDefinition, hheader, hdecode, hm, htransform, hextract, h1]
    · intro st3 promEncode err hencode
      simp only [ParseDefinition, hheader, hdecode, hm, htransform, hextract, hencode]
      rfl
    · intro st3 promEncode st4 visualization hencode hvisualization
      simp only [ParseDefinition, hheader, hdecode, hm, htransform, hextract, hencode,
        hvisualization]
      rfl
  · intro ha
    subst ha
    exact ParseDefinition_nil_aggregates env st st1 st2 name bytes defFile transformNetwork
      extractTimebased hheader hdecode hm htransform hextract

theorem ParseDefinition_encode_flag_witness :
    (decide ((demoForeign.Rules []).length > 0) = false ∧
      (demoTotalEnv.parseExtract
        { demoState with cg := { demoState.cg with transformRules := ["bytes_total"] } }
        []).2.1 = some [] ∧
      ParseDefinition demoTotalEnv demoState "defs/x.yaml" (demoHeader ++ [120]) =
        .ok (appendDefinition
          { demoState with cg := { demoState.cg with transformRules := ["bytes_total"] } }
          { FileName := "defs/x.yaml", Description := "", Details := "", Usage := "",
            Tags := [], TransformNetwork := some ["bytes_total"], Aggregates := some [],
            ExtractTimebased := none, PromEncode := none, Visualization := none }, none)) ∧
    ParseDefinition demoTotalEnv demoState "defs/a.yaml" (demoHeader ++ [120, 97, 110]) =
      .ok (appendDefinition
        { demoState with cg := { demoState.cg with transformRules := ["bytes_total"] } }
        { FileName := "defs/a.yaml", Description := "", Details := "", Usage := "",
          Tags := [], TransformNetwork := some ["bytes_total"],
          Aggregates := some ["bytes_sum"], ExtractTimebased := none,
          PromEncode := some ["bytes_metric", "agg"], Visualization := none }, none) :=
  ⟨⟨by decide, by rfl,
      ((ParseDefinition_encode_flag demoTotalEnv demoState
        { demoState with cg := { demoState.cg with transformRules := ["bytes_total"] } }
        { demoState with cg := { demoState.cg with transformRules := ["bytes_total"] } }
        "defs/x.yaml" (demoHeader ++ [120])
        (demoTotalEnv.UnmarshalStrict (demoHeader ++ [120])).1 (some ["bytes_total"])
        (some []) none (by decide) (by rfl) (by decide) (by rfl) (by rfl)).1 [] rfl).2.2.2
        _ none _ none (by rfl) (by rfl)⟩,
    ((ParseDefinition_encode_flag demoTotalEnv demoState
      { demoState with cg := { demoState.cg with transformRules := ["bytes_total"] } }
      { demoState with cg := { demoState.cg with transformRules := ["bytes_total"] } }
      "defs/a.yaml" (demoHeader ++ [120, 97, 110])
      (demoTotalEnv.UnmarshalStrict (demoHeader ++ [120, 97, 110])).1 (some ["bytes_total"])
      (some ["bytes_sum"]) none (by decide) (by rfl) (by decide) (by rfl) (by rfl)).1
      ["bytes_sum"] rfl).2.2.2 _ (some ["bytes_metric", "agg"]) _ none (by rfl) (by rfl)⟩

/-! ## Run -/

theorem parseDefinitionFiles_append (env : Env F) (pre post : List String) (st : State F) :
    parseDefinitionFiles env (pre ++ post) st =
      (parseDefinitionFiles env pre st).bind (fun s => parseDefinitionFiles env post s) := by
  induction pre generalizing st with
  | nil => rfl
  | cons definitionFile rest ih =>
    simp only [List.cons_append, parseDefinitionFiles]
    split
    · exact ih st
    · split
      · rfl
      · exact ih _
      · exact ih _

/-- The definition files the loop of `Run` gets through when no call faults. -/
theorem parseDefinitionFiles_ok (env : Env F)
    (hreturns : ∀ s n b, ∃ r, ParseDefinition env s n b = .ok r)
    (files : List String) (st : State F) :
    ∃ st2, parseDefinitionFiles env files st = .ok st2 := by
  induction files generalizing st with
  | nil => exact ⟨st, rfl⟩
  | cons definitionFile rest ih =>
    simp only [parseDefinitionFiles]
    split
    · exact ih st
    · rename_i b _
      obtain ⟨r, hr⟩ := hreturns st definitionFile b
      rw [hr]
      obtain ⟨s1, e⟩ := r
      cases e with
      | none => exact ih s1
      | some err => exact ih s1

/-- Once the base config has loaded, an error `Run` returns is the error a write or
generation step returned, and the state is the one that step left. -/
theorem Run_error_provenance (env : Env F) (st st9 : State F) (err : Error)
    (hconf : (env.ParseConfigFile st (st.cg.opts.SrcFolder ++ "/" ++ configFileName)).2.2 = none)
    (h : Run env st = .ok (st9, some err)) :
    (∃ s path cfg, env.writeConfigFile s path cfg = (st9, some err)) ∨
    (∃ s path, env.generateDoc s path = (st9, some err)) ∨
    (∃ s, ∃ d, env.generateGrafanaDashboards s = (st9, d, some err)) ∨
    (∃ s path d, env.generateGrafanaJsonnetFiles s path d = (st9, some err)) ∨
    (∃ s path d, env.generateJSONFiles s path d = (st9, some err)) := by
  unfold Run at h
  split at h
  · rename_i hc
    rw [hc] at hconf
    cases hconf
  simp only at h
  split at h
  · cases h
  split at h
  · split at h
    · rename_i s5 e hw
      simp only [Except.ok.injEq, Prod.mk.injEq, Option.some.injEq] at h
      obtain ⟨rfl, rfl⟩ := h
      exact Or.inl ⟨_, _, _, hw⟩
    · simp at h
  split at h
  · rename_i s5 e hw
    simp only [Except.ok.injEq, Prod.mk.injEq, Option.some.injEq] at h
    obtain ⟨rfl, rfl⟩ := h
    exact Or.inl ⟨_, _, _, hw⟩
  split at h
  · rename_i s6 e hd
    simp only [Except.ok.injEq, Prod.mk.injEq, Option.some.injEq] at h
    obtain ⟨rfl, rfl⟩ := h
    exact Or.inr (Or.inl ⟨_, _, hd⟩)
  split at h
  · rename_i s7 d e hg
    simp only [Except.ok.injEq, Prod.mk.injEq, Option.some.injEq] at h
    obtain ⟨rfl, rfl⟩ := h
    exact Or.inr (Or.inr (Or.inl ⟨_, _, hg⟩))
  split at h
  · rename_i s8 e hj
    simp only [Except.ok.injEq, Prod.mk.injEq, Option.some.injEq] at h
    obtain ⟨rfl, rfl⟩ := h
    exact Or.inr (Or.inr (Or.inr (Or.inl ⟨_, _, _, hj⟩)))
  split at h
  · rename_i s9 e hj
    simp only [Except.ok.injEq, Prod.mk.injEq, Option.some.injEq] at h
    obtain ⟨rfl, rfl⟩ := h
    exact Or.inr (Or.inr (Or.inr (Or.inr ⟨_, _, _, hj⟩)))
  · simp at h

/-- When no call of `ParseDefinition` faults, `Run` returns. -/
theorem Run_returns (env : Env F) (hreturns : ∀ s n b, ∃ r, ParseDefinition env s n b = .ok r)
    (st : State F) : ∃ r, Run env st = .ok r := by
  unfold Run
  split
  · exact ⟨_, rfl⟩
  simp only
  rename_i st0 config _
  obtain ⟨st2, hloop⟩ := parseDefinitionFiles_ok env hreturns
    (getDefinitionFiles env (SetConfig st0 config).world (SetConfig st0 config).cg.opts.SrcFolder)
    (SetConfig st0 config)
  rw [hloop]
  simp only
  split
  · split <;> exact ⟨_, rfl⟩
  split
  · exact ⟨_, rfl⟩
  split
  · exact ⟨_, rfl⟩
  split
  · exact ⟨_, rfl⟩
  split
  · exact ⟨_, rfl⟩
  split <;> exact ⟨_, rfl⟩

/-- C5. A definition file that fails is not fatal to `Run`.  In the loop over the files
found, a file that cannot be read, or for which `ParseDefinition` returns an error, is
passed over and the files after it are parsed, from the state the failed call left.  Once the base config has loaded, an error returned by `Run` is the error of a
write or generation step, never one of a definition; and `Run` returns whenever no call
of `ParseDefinition` faults. -/
theorem Run_definition_failure_not_fatal (env : Env F) (pre post : List String)
    (definitionFile : String) (st s1 s2 : State F)
    (hpre : parseDefinitionFiles env pre st = .ok s1)
    (hfail :
      (∃ b err, env.ReadFile s1.world definitionFile = (b, some err) ∧ s2 = s1) ∨
      (∃ b err, env.ReadFile s1.world definitionFile = (b, none) ∧
        ParseDefinition env s1 definitionFile b = .ok (s2, some err))) :
    parseDefinitionFiles env (pre ++ definitionFile :: post) st =
      parseDefinitionFiles env post s2 ∧
    (∀ st0 st9 err,
      (env.ParseConfigFile st0 (st0.cg.opts.SrcFolder ++ "/" ++ configFileName)).2.2 = none →
      Run env st0 = .ok (st9, some err) →
      (∃ s path cfg, env.writeConfigFile s path cfg = (st9, some err)) ∨
      (∃ s path, env.generateDoc s path = (st9, some err)) ∨
      (∃ s, ∃ d, env.generateGrafanaDashboards s = (st9, d, some err)) ∨
      (∃ s path d, env.generateGrafanaJsonnetFiles s path d = (st9, some err)) ∨
      (∃ s path d, env.generateJSONFiles s path d = (st9, some err))) ∧
    ((∀ s n b, ∃ r, ParseDefinition env s n b = .ok r) → ∀ st0, ∃ r, Run env st0 = .ok r) := by
  refine ⟨?_, fun st0 st9 err hconf h => Run_error_provenance env st0 st9 err hconf h,
    fun hreturns st0 => Run_returns env hreturns st0⟩
  rw [parseDefinitionFiles_append, hpre]
  show parseDefinitionFiles env (definitionFile :: post) s1 = _
  rcases hfail with ⟨b, err, hread, rfl⟩ | ⟨b, err, hread, hparse⟩
  · simp only [parseDefinitionFiles, hread]
  · simp only [parseDefinitionFiles, hread, hparse]

theorem Run_definition_failure_not_fatal_witness :
    parseDefinitionFiles demoEnv (["defs/missing.yaml"] ++ "defs/bad.yaml" :: ["defs/a.yaml"])
        demoState =
      parseDefinitionFiles demoEnv ["defs/a.yaml"] demoState ∧
    Run demoEnv demoState =
      .ok (demoWritten (demoParsed demoState)
        ["out/pipeline.yaml", "out/doc.md", "out/jsonnet", "out/dashboards"], none) ∧
    ((∃ s path cfg, demoEnv.writeConfigFile s path cfg =
        (demoWritten (demoParsed demoNoDocState) ["out/pipeline.yaml"],
          some ⟨"cannot write"⟩)) ∨
      (∃ s path, demoEnv.generateDoc s path =
        (demoWritten (demoParsed demoNoDocState) ["out/pipeline.yaml"],
          some ⟨"cannot write"⟩)) ∨
      (∃ s, ∃ d, demoEnv.generateGrafanaDashboards s =
        (demoWritten (demoParsed demoNoDocState) ["out/pipeline.yaml"], d,
          some ⟨"cannot write"⟩)) ∨
      (∃ s path d, demoEnv.generateGrafanaJsonnetFiles s path d =
        (demoWritten (demoParsed demoNoDocState) ["out/pipeline.yaml"],
          some ⟨"cannot write"⟩)) ∨
      (∃ s path d, demoEnv.generateJSONFiles s path d =
        (demoWritten (demoParsed demoNoDocState) ["out/pipeline.yaml"],
          some ⟨"cannot write"⟩))) ∧
    (∀ st0, ∃ r, Run demoTotalEnv st0 = .ok r) :=
  ⟨(Run_definition_failure_not_fatal demoEnv ["defs/missing.yaml"] ["defs/a.yaml"]
      "defs/bad.yaml" demoState demoState demoState (by rfl)
      (Or.inr ⟨[35, 102, 108, 112], ⟨"wrong header"⟩, by rfl, by rfl⟩)).1,
    by rfl,
    (Run_definition_failure_not_fatal demoEnv ["defs/missing.yaml"] ["defs/a.yaml"]
      "defs/bad.yaml" demoState demoState demoState (by rfl)
      (Or.inr ⟨[35, 102, 108, 112], ⟨"wrong header"⟩, by rfl, by rfl⟩)).2.1
      demoNoDocState _ _ (by rfl) (by rfl),
    (Run_definition_failure_not_fatal demoTotalEnv [] [] "defs/missing.yaml" demoState demoState
      demoState (by rfl) (Or.inl ⟨[], ⟨"no such file"⟩, by rfl, rfl⟩)).2.2
      demoTotalEnv_returns⟩

theorem length_ne_zero_of_ne_nil {α : Type} (l : List α) (h : l ≠ []) : l.length ≠ 0 :=
  fun hl => h (List.length_eq_zero.mp hl)

/-- C6. An error outside the single-definition boundary ends `Run` at once and is
returned as it is.  When loading the base config fails, `Run` returns that error in the
state `ParseConfigFile` left (with `cg.config` assigned), whatever the other collaborators
are: no definition is parsed, nothing is deduplicated or written.  When the config write
of either mode, the documentation step, the dashboard generation or one of the two
dashboard writes fails, `Run` returns that step's error in the state that step left: no
later step has run. -/
theorem Run_fatal_errors (env : Env F) (st st0 st2 st4 st5 st6 st7 st8 st9 : State F)
    (config : Option F.Config) (cfg : F.GeneratedConfig) (dashboards : F.Dashboards)
    (err : Error) :
    (env.ParseConfigFile st (st.cg.opts.SrcFolder ++ "/" ++ configFileName) =
        (st0, config, some err) →
      ∀ env1 : Env F, env1.ParseConfigFile = env.ParseConfigFile →
        Run env1 st = .ok (SetConfig st0 config, some err)) ∧
    (env.ParseConfigFile st (st.cg.opts.SrcFolder ++ "/" ++ configFileName) =
        (st0, config, none) →
      parseDefinitionFiles env
        (getDefinitionFiles env (SetConfig st0 config).world
          (SetConfig st0 config).cg.opts.SrcFolder)
        (SetConfig st0 config) = .ok st2 →
      ((env.dedupe st2).cg.opts.GenerateStages ≠ [] →
        env.GenerateTruncatedConfig (env.dedupe st2) = (st4, cfg) →
        env.writeConfigFile st4 st4.cg.opts.DestConfFile cfg = (st5, some err) →
        Run env st = .ok (st5, some err)) ∧
      ((env.dedupe st2).cg.opts.GenerateStages = [] →
        env.GenerateFlowlogs2PipelineConfig (env.dedupe st2) = (st4, cfg) →
        (env.writeConfigFile st4 st4.cg.opts.DestConfFile cfg = (st5, some err) →
          Run env st = .ok (st5, some err)) ∧
        (env.writeConfigFile st4 st4.cg.opts.DestConfFile cfg = (st5, none) →
          (env.generateDoc st5 st5.cg.opts.DestDocFile = (st6, some err) →
            Run env st = .ok (st6, some err)) ∧
          (env.generateDoc st5 st5.cg.opts.DestDocFile = (st6, none) →
            (env.generateGrafanaDashboards st6 = (st7, dashboards, some err) →
              Run env st = .ok (st7, some err)) ∧
            (env.generateGrafanaDashboards st6 = (st7, dashboards, none) →
              (env.generateGrafanaJsonnetFiles st7 st7.cg.opts.DestGrafanaJsonnetFolder
                  dashboards = (st8, some err) →
                Run env st = .ok (st8, some err)) ∧
              (env.generateGrafanaJsonnetFiles st7 st7.cg.opts.DestGrafanaJsonnetFolder
                  dashboards = (st8, none) →
                env.generateJSONFiles st8 st8.cg.opts.DestDashboardFolder dashboards =
                  (st9, some err) →
                Run env st = .ok (st9, some err))))))) := by
  constructor
  · intro hconf env1 h1
    simp only [Run, h1, hconf]
  intro hconf hloop
  constructor
  · intro hmode hgen hwrite
    have hl := length_ne_zero_of_ne_nil _ hmode
    simp only [Run, hconf, hloop, hl, hgen, hwrite, ne_eq, not_false_eq_true, if_true]
  intro hmode hgen
  have hl : ¬ (env.dedupe st2).cg.opts.GenerateStages.length ≠ 0 := by
    rw [hmode]
    simp
  constructor
  · intro hwrite
    simp only [Run, hconf, hloop, hl, hgen, hwrite, if_false]
  intro hwrite
  constructor
  · intro hdoc
    simp only [Run, hconf, hloop, hl, hgen, hwrite, hdoc, if_false]
  intro hdoc
  constructor
  · intro hdash
    simp only [Run, hconf, hloop, hl, hgen, hwrite, hdoc, hdash, if_false]
  intro hdash
  constructor
  · intro hjsonnet
    simp only [Run, hconf, hloop, hl, hgen, hwrite, hdoc, hdash, hjsonnet, if_false]
  intro hjsonnet hjson
  simp only [Run, hconf, hloop, hl, hgen, hwrite, hdoc, hdash, hjsonnet, hjson, if_false]

/-- C7. `Run` chooses the generation mode by whether `opts.GenerateStages` is empty, read
after deduplication.  When it is not empty, `Run` writes the value of
`GenerateTruncatedConfig` to `DestConfFile` and returns what that write returns, state
and error: no documentation, no dashboards.  When it is empty, `Run` writes the value of
`GenerateFlowlogs2PipelineConfig` to `DestConfFile`, then generates the documentation and
the dashboards and writes them, and returns what the last write returns.  Either way the
config written is generated from the deduplicated state and `writeConfigFile` is applied
once. -/
theorem Run_generation_mode (env : Env F) (st st0 st2 : State F) (config : Option F.Config)
    (hconf : env.ParseConfigFile st (st.cg.opts.SrcFolder ++ "/" ++ configFileName) =
      (st0, config, none))
    (hloop : parseDefinitionFiles env
      (getDefinitionFiles env (SetConfig st0 config).world
        (SetConfig st0 config).cg.opts.SrcFolder)
      (SetConfig st0 config) = .ok st2) :
    ((env.dedupe st2).cg.opts.GenerateStages ≠ [] →
      ∀ st4 cfg, env.GenerateTruncatedConfig (env.dedupe st2) = (st4, cfg) →
        Run env st = .ok (env.writeConfigFile st4 st4.cg.opts.DestConfFile cfg)) ∧
    ((env.dedupe st2).cg.opts.GenerateStages = [] →
      ∀ st4 cfg st5 st6 st7 dashboards st8,
        env.GenerateFlowlogs2PipelineConfig (env.dedupe st2) = (st4, cfg) →
        env.writeConfigFile st4 st4.cg.opts.DestConfFile cfg = (st5, none) →
        env.generateDoc st5 st5.cg.opts.DestDocFile = (st6, none) →
        env.generateGrafanaDashboards st6 = (st7, dashboards, none) →
        env.generateGrafanaJsonnetFiles st7 st7.cg.opts.DestGrafanaJsonnetFolder dashboards =
          (st8, none) →
        Run env st =
          .ok (env.generateJSONFiles st8 st8.cg.opts.DestDashboardFolder dashboards)) := by
  constructor
  · intro hmode st4 cfg hgen
    have hl := length_ne_zero_of_ne_nil _ hmode
    simp only [Run, hconf, hloop, hl, hgen, ne_eq, not_false_eq_true, if_true]
    split <;> rename_i h <;> rw [h]
  · intro hmode st4 cfg st5 st6 st7 dashboards st8 hgen hwrite hdoc hdash hjsonnet
    have hl : ¬ (env.dedupe st2).cg.opts.GenerateStages.length ≠ 0 := by
      rw [hmode]
      simp
    simp only [Run, hconf, hloop, hl, hgen, hwrite, hdoc, hdash, hjsonnet, if_false]
    split <;> rename_i h <;> rw [h]

theorem Run_fatal_errors_witness :
    (∀ env1 : Env demoForeign, env1.ParseConfigFile = demoEnv.ParseConfigFile →
      Run env1 demoEmptyState = .ok (SetConfig demoEmptyState none, some ⟨"no base config"⟩)) ∧
    Run demoEnv demoNoDocState =
      .ok (demoWritten (demoParsed demoNoDocState) ["out/pipeline.yaml"],
        some ⟨"cannot write"⟩) :=
  ⟨(Run_fatal_errors demoEnv demoEmptyState demoEmptyState demoEmptyState demoEmptyState
      demoEmptyState demoEmptyState demoEmptyState demoEmptyState demoEmptyState none [] []
      ⟨"no base config"⟩).1 (by rfl),
    ((((Run_fatal_errors demoEnv demoNoDocState demoNoDocState (demoParsed demoNoDocState)
      (demoParsed demoNoDocState)
      (demoWritten (demoParsed demoNoDocState) ["out/pipeline.yaml"])
      (demoWritten (demoParsed demoNoDocState) ["out/pipeline.yaml"])
      demoNoDocState demoNoDocState demoNoDocState (some "defs/config.yaml") ["bytes_total"] []
      ⟨"cannot write"⟩).2 (by rfl) (by rfl)).2 (by rfl) (by rfl)).2 (by rfl)).1 (by rfl)⟩

theorem Run_generation_mode_witness :
    Run demoEnv demoTruncatedState =
      .ok (demoWritten (demoParsed demoTruncatedState) ["out/pipeline.yaml"], none) ∧
    Run demoEnv demoState =
      .ok (demoWritten (demoParsed demoState)
        ["out/pipeline.yaml", "out/doc.md", "out/jsonnet", "out/dashboards"], none) :=
  ⟨(Run_generation_mode demoEnv demoTruncatedState demoTruncatedState
      (demoParsed demoTruncatedState) (some "defs/config.yaml") (by rfl) (by rfl)).1
      (by decide) (demoParsed demoTruncatedState) ["transform"] (by rfl),
    (Run_generation_mode demoEnv demoState demoState (demoParsed demoState)
      (some "defs/config.yaml") (by rfl) (by rfl)).2 (by rfl)
      (demoParsed demoState) ["bytes_total"]
      (demoWritten (demoParsed demoState) ["out/pipeline.yaml"])
      (demoWritten (demoParsed demoState) ["out/pipeline.yaml", "out/doc.md"])
      (demoWritten (demoParsed demoState) ["out/pipeline.yaml", "out/doc.md"]) []
      (demoWritten (demoParsed demoState) ["out/pipeline.yaml", "out/doc.md", "out/jsonnet"])
      (by rfl) (by rfl) (by rfl) (by rfl) (by rfl)⟩

end Confgen
